import Mathlib

/-!
Shallow embedding of the retry-aware inventory caching engine, the quorum
validator, the random sampling pipeline and the status classification of
the eidaQC package (modules `eida_availability.py`, `eida_inventory.py`,
`statuscodes.py`), together with proofs of the behavioural claims about it.

Conventions of the embedding:
* timestamps and file ages are rationals (seconds);
* a missing file is `Option.none`;
* an external call that may raise is an oracle value passed in
  (`Option`/`FetchOutcome`), `none`/`err` meaning the call raised;
* `np.random.randint(0, n)` is modelled by `r % n` for an arbitrary
  natural tape value `r` (uniform support `[0, n)` for `n > 0`);
* side effects (touching/removing the retry flag file, writing a result
  record) are explicit state passing / returned record lists.
-/

namespace EidaQC

/-! ### statuscodes.py -/

def STATUS_OK : ℕ := 0
def STATUS_NOSERV : ℕ := 1
def STATUS_METAFAIL : ℕ := 2
def STATUS_NODATA : ℕ := 3
def STATUS_FRAGMENT : ℕ := 4
def STATUS_INCOMPLETE : ℕ := 5
def STATUS_RESTFAIL : ℕ := 6

/-! ### The obspy inventory object, as consumed by this code

`inv.get_contents()['networks']` lists the code of every `Network` object
(duplicates possible), `['stations']` one `"NET.STA"` entry per station
epoch, `['channels']` one `"NET.STA.LOC.CHA"` entry per channel.
`inv.select(network=net, station=sta)` keeps the matching networks,
restricted to the matching station epochs, dropping networks left empty;
iterating a network yields its station epochs, each with an `end_date`
(`None` for an open end). -/

/-- One station epoch inside a network: station code plus the epoch's
end date (`none` when the epoch is open-ended). -/
structure StationEpoch where
  code : String
  end_date : Option ℚ
deriving DecidableEq, Repr

/-- One `Network` object of an obspy inventory. -/
structure Network where
  code : String
  stations : List StationEpoch
deriving DecidableEq, Repr

/-- An obspy `Inventory`: the list of its `Network` objects. -/
structure Inventory where
  networks : List Network
deriving DecidableEq, Repr

/-- `inv.get_contents()['networks']`: the code of every network object,
duplicates kept. -/
def networks_contents (inv : Inventory) : List String :=
  inv.networks.map (·.code)

/-- `set(inv.get_contents()['stations'])`, with each entry already split
into its `(network_code, station_code)` pair (`.split()[0].split('.')`
of the `"NET.STA (site)"` string). -/
def station_list (inv : Inventory) : List (String × String) :=
  (inv.networks.flatMap (fun n => n.stations.map (fun s => (n.code, s.code)))).dedup

/-- `inv.select(network=net, station=sta)`: networks matching `net`,
each restricted to the station epochs matching `sta`; networks left
without stations are dropped. -/
def inv_select (inv : Inventory) (net sta : String) : List Network :=
  ((inv.networks.filter (fun n => n.code = net)).map
    (fun n => Network.mk n.code (n.stations.filter (fun s => s.code = sta)))).filter
    (fun n => n.stations ≠ [])

/-! ### RetryManager (eida_availability.py, lines 754-785)

The flag file is modelled by the age `now - mtime` of the marker
(`none` when no flag file exists). `try_failed` touches the file, so the
age becomes `0`; letting wall-clock time pass adds to the age. -/

/-- State of a `RetryManager`: age of the flag file, `none` if absent. -/
structure RMState where
  flagAge : Option ℚ
deriving DecidableEq, Repr

/-- `RetryManager.try_failed`: touch the flag file (its age is now 0). -/
def try_failed (_s : RMState) : RMState := ⟨some 0⟩

/-- `RetryManager.new_retry`: retry is allowed when no flag file exists,
or when the flag file is older than `waittime` — in which case the flag
file is removed. Returns the decision and the resulting state. -/
def new_retry (waittime : ℚ) (s : RMState) : Bool × RMState :=
  match s.flagAge with
  | none => (true, s)
  | some fileage =>
    if fileage > waittime then (true, ⟨none⟩) else (false, s)

/-- Wall-clock time advancing by `t` seconds ages an existing flag file
by `t`. -/
def rm_advance (t : ℚ) (s : RMState) : RMState :=
  ⟨s.flagAge.map (· + t)⟩

/-! ### Inventory cache (eida_availability.py, lines 262-392) -/

/-- The on-disk `chanlist_cache.pickle`: its age `now - mtime` and the
pickled inventory. -/
structure CacheEntry where
  age : ℚ
  inv : Inventory
deriving DecidableEq, Repr

/-- `EidaAvailability._get_inventory_from_cache(overrideage)`:
`none` when no cache file exists or when it is older than `maxcacheage`
and `overrideage` is not set; otherwise the unpickled inventory. -/
def get_inventory_from_cache (maxcacheage : ℚ) (cache : Option CacheEntry)
    (overrideage : Bool) : Option Inventory :=
  match cache with
  | none => none
  | some c =>
    if c.age > maxcacheage ∧ ¬overrideage then none
    else some c.inv

/-- `EidaAvailability._servers_missing(inv)`: the reference networks not
present among the inventory's network codes. -/
def servers_missing (reference_networks : List String) (inv : Inventory) :
    List String :=
  reference_networks.filter (fun net => net ∉ networks_contents inv)

/-- `EidaAvailability.number_of_networks(inv)`:
`len(set(inv.get_contents()['networks']))`. -/
def number_of_networks (inv : Inventory) : ℕ :=
  (networks_contents inv).dedup.length

/-- `EidaAvailability._get_inventory_from_service()`. The raw outcome of
`roc.get_stations(...)` is the oracle `fetch` (`none`: the call raised).
A fetched inventory is validated: fewer distinct networks than
`eia_min_num_networks` rejects; missing reference networks reject unless
`ignore_missing`; an accepted inventory is returned (and pickled). -/
def get_inventory_from_service (eia_min_num_networks : ℕ)
    (reference_networks : List String) (ignore_missing : Bool)
    (fetch : Option Inventory) : Option Inventory :=
  match fetch with
  | none => none
  | some slist =>
    if number_of_networks slist < eia_min_num_networks then none
    else if servers_missing reference_networks slist ≠ [] then
      if ignore_missing then some slist else none
    else some slist

/-- Outcome of one `EidaAvailability.get_inventory` call: the returned
inventory (`none` for Python `None`), whether
`_get_inventory_from_service` was invoked (i.e. the external routing
service was called), and the final retry-manager state. -/
structure GetInvResult where
  result : Option Inventory
  serviceCalled : Bool
  rmFinal : RMState
deriving DecidableEq, Repr

/-- The part of `EidaAvailability.get_inventory` after the `force_cache`
short-circuit: consult the retry gate, read the cache honouring the
staleness bound when a retry is allowed and ignoring it when denied;
if no usable cache value, fetch from the service, marking the gate
failed and degrading to the ignore-staleness cache read when the fetch
fails or is rejected. -/
def get_inventory_core (maxcacheage : ℚ) (waittime : ℚ)
    (eia_min_num_networks : ℕ) (reference_networks : List String)
    (ignore_missing : Bool) (cache : Option CacheEntry) (rm : RMState)
    (fetch : Option Inventory) : GetInvResult :=
  let retry := new_retry waittime rm
  let slist :=
    if retry.1 then get_inventory_from_cache maxcacheage cache false
    else get_inventory_from_cache maxcacheage cache true
  match slist with
  | some v => ⟨some v, false, retry.2⟩
  | none =>
    match get_inventory_from_service eia_min_num_networks
        reference_networks ignore_missing fetch with
    | none =>
      ⟨get_inventory_from_cache maxcacheage cache true, true,
        try_failed retry.2⟩
    | some newinv => ⟨some newinv, true, retry.2⟩

/-- `EidaAvailability.get_inventory(force_cache)`: with `force_cache`,
return the cache ignoring its age when present, else fall through to the
normal path. -/
def get_inventory (maxcacheage : ℚ) (waittime : ℚ)
    (eia_min_num_networks : ℕ) (reference_networks : List String)
    (ignore_missing : Bool) (cache : Option CacheEntry) (rm : RMState)
    (fetch : Option Inventory) (force_cache : Bool) : GetInvResult :=
  if force_cache then
    match get_inventory_from_cache maxcacheage cache true with
    | some slist => ⟨some slist, false, rm⟩
    | none =>
      get_inventory_core maxcacheage waittime eia_min_num_networks
        reference_networks ignore_missing cache rm fetch
  else
    get_inventory_core maxcacheage waittime eia_min_num_networks
      reference_networks ignore_missing cache rm fetch

/-! ### Station sampling (eida_availability.py, lines 395-441) -/

/-- One iteration's random material for `select_random_station`:
the `np.random.randint(0, len(stalist))` index draw and the
`np.random.random()` roll used for the large-network dice. -/
structure Draw where
  idx : ℕ
  roll : ℚ
deriving DecidableEq, Repr

/-- `EidaAvailability.is_operating(fullinv, network, station)`: select the
station from the inventory; if nothing matches, the station is not
operating; otherwise it is operating when some epoch of the first matched
network has an open end date or one in the future. -/
def is_operating (fullinv : Inventory) (network station : String)
    (now : ℚ) : Bool :=
  match inv_select fullinv network station with
  | [] => false
  | selnet :: _ =>
    selnet.stations.any (fun episode =>
      match episode.end_date with
      | none => true
      | some e => e > now)

/-- `EidaAvailability.select_random_station()`: rejection-sampling loop
over the distinct station list. Each iteration draws a station (an
out-of-range index — e.g. an empty list — raises and continues, like the
bare `except`), throws the large-network dice, and accepts only operating
stations in networks not excluded. The unbounded `while True` is modelled
by the finite tape of draws; an exhausted tape yields `none`. -/
def select_random_station (slist : Inventory) (exclude_networks : List String)
    (large_networks : List (String × ℚ)) (now : ℚ) :
    List Draw → Option (String × String)
  | [] => none
  | d :: ds =>
    match (station_list slist).get? (d.idx % (station_list slist).length) with
    | none => select_random_station slist exclude_networks large_networks now ds
    | some (net, sta) =>
      if (match large_networks.lookup net with
          | some w => decide (d.roll > w)
          | none => false) then
        select_random_station slist exclude_networks large_networks now ds
      else if net ∉ exclude_networks ∧ is_operating slist net sta now then
        some (net, sta)
      else
        select_random_station slist exclude_networks large_networks now ds

/-! ### Request window (eida_availability.py, lines 443-453) -/

/-- `np.random.randint(0, n)` for a tape value `r`: an integer in
`[0, n)` when `n > 0`. -/
def randint (n : ℤ) (r : ℕ) : ℤ := (r : ℤ) % n

/-- `EidaAvailability._get_random_request_length()`:
`minreqlen + randint(0, maxreqlen - minreqlen)`. -/
def get_random_request_length (minreqlen maxreqlen : ℤ) (r : ℕ) : ℤ :=
  minreqlen + randint (maxreqlen - minreqlen) r

/-- `EidaAvailability._get_random_request_interval()`: the global span
endpoints are integer epoch seconds `(span0, span1)`; the start is drawn
in the span shortened by the request length. -/
def get_random_request_interval (span0 span1 minreqlen maxreqlen : ℤ)
    (rlen rstart : ℕ) : ℤ × ℤ :=
  let reqspan := get_random_request_length minreqlen maxreqlen rlen
  let totalspan := (span1 - span0) - reqspan
  let randstart := span0 + randint totalspan rstart
  (randstart, randstart + reqspan)

/-! ### Status classification (eida_availability.py, lines 456-481
and 553-632) -/

/-- One trace of the returned stream, as far as `process_request`
inspects it after `trc.trim(*reqspan)`: sampling interval `delta`,
number of samples, whether `remove_response` raised, and whether the
first sample is NaN afterwards (the `trc.data[0] != trc.data[0]` test). -/
structure Trace where
  delta : ℚ
  npts : ℕ
  restfailed : Bool
  firstSampleNaN : Bool
deriving DecidableEq, Repr

/-- The single-trace branch of `process_request`: incomplete data,
failed restitution, NaN first sample, or OK. -/
def classify_trace (reqlen : ℚ) (trc : Trace) : ℕ :=
  let datalen := trc.delta * (trc.npts : ℚ)
  if datalen / reqlen < 99/100 then STATUS_INCOMPLETE
  else if trc.restfailed then STATUS_RESTFAIL
  else if trc.firstSampleNaN then STATUS_METAFAIL
  else STATUS_OK

/-- The classification of `process_request` over the outcome of the
waveform request: `none` models `get_waveforms` raising (`st = None`). -/
def process_request_status (reqlen : ℚ) (st : Option (List Trace)) : ℕ :=
  match st with
  | none => STATUS_NODATA
  | some [] => STATUS_NODATA
  | some [trc] => classify_trace reqlen trc
  | some (_ :: _ :: _) => STATUS_FRAGMENT

/-- Outcome of the external calls of one probe: either the per-station
metadata fetch of `get_station_meta` raised, or it succeeded and the
waveform request returned `st`. -/
inductive ProbeOutcome where
  | metaFail (e : String)
  | waveform (st : Option (List Trace))
deriving DecidableEq, Repr

/-- The status code of one probe: `get_station_meta` raising yields
`STATUS_NOSERV` (set before `logresult`); otherwise `process_request`
classifies the waveform outcome. -/
def probe_status (reqlen : ℚ) (o : ProbeOutcome) : ℕ :=
  match o with
  | .metaFail _ => STATUS_NOSERV
  | .waveform st => process_request_status reqlen st

/-! ### Channel selection and random_request
(eida_availability.py, lines 484-550) -/

/-- The per-station inventory fetched by `get_station_meta`, as far as
channel selection reads it: `get_contents()['channels']`, the list of
`"NET.STA.LOC.CHA"` channel identifiers. -/
structure StaInv where
  channels : List String
deriving DecidableEq, Repr

/-- The `sellist` of `select_random_station_channel`: the distinct
channels whose 2-letter band+instrument code (`chan.split('.')[-1][0:2]`)
matches one of the wanted channels' prefixes. -/
def matching_channels (wanted_channels : List String) (stainv : StaInv) :
    List String :=
  let wchan := wanted_channels.map (fun c => c.take 2)
  stainv.channels.dedup.filter
    (fun chan => (((chan.splitOn ".").getLastD "").take 2) ∈ wchan)

/-- `EidaAvailability.select_random_station_channel(stainv)`: `none` when
no channel matches (only a logger warning, no result record); otherwise
a uniformly drawn matching channel. -/
def select_random_station_channel (wanted_channels : List String)
    (stainv : StaInv) (r : ℕ) : Option String :=
  let sellist := matching_channels wanted_channels stainv
  if sellist.length = 0 then none
  else sellist.get? (r % sellist.length)

/-- Outcome of the `get_station_meta` call inside `random_request`:
`err` models the metadata request raising. -/
inductive MetaOutcome where
  | err (e : String)
  | ok (stainv : StaInv)
deriving DecidableEq, Repr

/-- `EidaAvailability.random_request()` from the point where the station
and request interval are fixed: returns the selected channel (or `none`)
together with the list of status codes of the `RequestRecord` lines
appended to the file database during the call. A failing metadata fetch
logs one `STATUS_NOSERV` record (inside `get_station_meta`); the
empty-channel-list and no-matching-channel exits write nothing. -/
def random_request (wanted_channels : List String) (meta : MetaOutcome)
    (r : ℕ) : Option String × List ℕ :=
  match meta with
  | .err _ => (none, [STATUS_NOSERV])
  | .ok stainv =>
    if stainv.channels = [] then (none, [])
    else
      match select_random_station_channel wanted_channels stainv r with
      | none => (none, [])
      | some selchan => (some selchan, [])

/-! ### Inventory consistency probe (eida_inventory.py) -/

/-- `legal_reqlevels` of eida_inventory.py. -/
def legal_reqlevels : List String := ["network", "station", "channel"]

/-- The fields of an `EidaInventory` object that its constructor stores
(the ones the probe logic reads). -/
structure EidaInventoryObj where
  reqlevel : String
deriving DecidableEq, Repr

/-- `EidaInventory.__init__(reqlevel, ...)`: an illegal request level
raises `RuntimeError` before anything else happens (in particular before
any server or routing request); a legal one is stored unchanged. -/
def eida_inventory_init (reqlevel : String) :
    Except String EidaInventoryObj :=
  if reqlevel ∉ legal_reqlevels then
    Except.error (reqlevel ++ " is not a legal request level")
  else
    Except.ok ⟨reqlevel⟩

/-- Outcome of one `get_stations` call of the consistency probe
(`err` carries the `repr(e)` written to the result log). -/
inductive FetchOutcome where
  | ok (inv : Inventory)
  | err (msg : String)
deriving DecidableEq, Repr

/-- The loop body accumulator of `EidaInventory.server_request`: `snets`
is the running union of retrieved network sets, `failed` the servers
whose request raised (each gets a `FAILED:` line and the loop
continues). -/
def server_request_aux (snets : Finset String) (failed : List String) :
    List (String × FetchOutcome) → Finset String × List String
  | [] => (snets, failed)
  | (srv, .err _) :: rest =>
    server_request_aux snets (failed ++ [srv]) rest
  | (_, .ok sinv) :: rest =>
    server_request_aux (snets ∪ (networks_contents sinv).toFinset) failed rest

/-- `EidaInventory.server_request()`: one direct request per configured
server, given the oracle of each request's outcome. -/
def server_request (reqs : List (String × FetchOutcome)) :
    Finset String × List String :=
  server_request_aux ∅ [] reqs

/-- `EidaInventory.routing_request()`: the single routed request; a
failure writes a `FAILED:` line plus the separator and calls `exit()`,
aborting the cycle. -/
def routing_request (routed : FetchOutcome) : Except String (Finset String) :=
  match routed with
  | .err msg => Except.error msg
  | .ok rinv => Except.ok (networks_contents rinv).toFinset

/-- The comparison computed by a completed consistency-probe cycle
(`check4missing_networks` and `print_results`). -/
structure CycleResult where
  snets : Finset String
  failedServers : List String
  rnets : Finset String
  missing_ref_networks : List String
  rnets_minus_snets : Finset String
  snets_minus_rnets : Finset String
deriving DecidableEq

/-- One cycle of `eida_inventory.run` after construction: the direct
per-server requests (failures recorded, batch continues), then the routed
request — whose failure exits before any comparison — then the missing
reference networks and the set differences. -/
def inv_test_cycle (reqs : List (String × FetchOutcome))
    (routed : FetchOutcome) (reference_networks : List String) :
    Option CycleResult :=
  let s := server_request reqs
  match routing_request routed with
  | .error _ => none
  | .ok rnets =>
    some ⟨s.1, s.2, rnets,
      reference_networks.filter (fun net => net ∉ rnets),
      rnets \ s.1, s.1 \ rnets⟩

/-! ### Concrete sample data used by the witness statements -/

/-- A one-network inventory: network `GR` with open-ended station `BFO`. -/
def invGR : Inventory := ⟨[⟨"GR", [⟨"BFO", none⟩]⟩]⟩

/-! ## Theorems -/

/-- Helper: the `.result` of the non-`force_cache` path of
`get_inventory` is `none` exactly when no cache file exists and the
service path produced nothing. -/
theorem get_inventory_core_result_none_iff (m wt : ℚ) (minN : ℕ)
    (refs : List String) (ign : Bool) (cache : Option CacheEntry)
    (rm : RMState) (fetch : Option Inventory) :
    (get_inventory_core m wt minN refs ign cache rm fetch).result = none ↔
      (cache = none ∧ get_inventory_from_service minN refs ign fetch = none) := by
  unfold get_inventory_core
  rcases cache with _ | c
  · rcases hs : get_inventory_from_service minN refs ign fetch with _ | newinv <;>
      simp [get_inventory_from_cache, hs]
  · rcases hr : new_retry wt rm with ⟨b, rm'⟩
    rcases b with _ | _
    · simp [get_inventory_from_cache]
    · by_cases hage : c.age > m
      · simp only [get_inventory_from_cache, hage, not_false_iff, and_true,
          if_true, not_true, and_false, if_false]
        rcases hs : get_inventory_from_service minN refs ign fetch with _ | newinv <;>
          simp [hs]
      · simp [get_inventory_from_cache, hage]

/-- C1 (amended): `get_inventory` returns `None` exactly when no cache
file exists and the service path (raw fetch plus quorum validation)
yields nothing; for every other configuration of cache, retry state and
service outcome it returns an inventory. -/
theorem C1_get_inventory_none_iff (m wt : ℚ) (minN : ℕ)
    (refs : List String) (ign : Bool) (cache : Option CacheEntry)
    (rm : RMState) (fetch : Option Inventory) (force_cache : Bool) :
    (get_inventory m wt minN refs ign cache rm fetch force_cache).result = none ↔
      (cache = none ∧ get_inventory_from_service minN refs ign fetch = none) := by
  unfold get_inventory
  rcases force_cache with _ | _
  · simpa using get_inventory_core_result_none_iff m wt minN refs ign cache rm fetch
  · rcases cache with _ | c
    · simpa [get_inventory_from_cache] using
        get_inventory_core_result_none_iff m wt minN refs ign none rm fetch
    · simp [get_inventory_from_cache]

/-- C1, counterexample to the claim as stated: with no cache file and a
failing service call, `get_inventory` does not raise any
`InventoryUnavailable` error — it completes normally and returns `None`
(after calling the service and marking the retry gate failed). No such
exception exists anywhere in the code. -/
theorem C1_counterexample :
    get_inventory 432000 3600 80 [] false none ⟨none⟩ none false =
      ⟨none, true, ⟨some 0⟩⟩ := by
  decide

/-- C1 witness: the amended equivalence evaluated at a concrete state
(cache absent, service fetch raising). -/
theorem C1_witness :
    (get_inventory 432000 3600 80 [] false none ⟨none⟩ none false).result = none :=
  (C1_get_inventory_none_iff 432000 3600 80 [] false none ⟨none⟩ none false).mpr
    ⟨rfl, rfl⟩

/-- C2: when a cache file exists (of any age) and the retry gate denies a
new retry (a failure marker exists, younger than `waittime`),
`get_inventory` with `force_cache = False` returns the cached inventory
unchanged, does not call the external service, and leaves the retry
marker in place. -/
theorem C2_cache_reused_when_gate_denies (m wt : ℚ) (minN : ℕ)
    (refs : List String) (ign : Bool) (c : CacheEntry) (a : ℚ)
    (ha : a < wt) (fetch : Option Inventory) :
    get_inventory m wt minN refs ign (some c) ⟨some a⟩ fetch false =
      ⟨some c.inv, false, ⟨some a⟩⟩ := by
  unfold get_inventory get_inventory_core
  have hnot : ¬a > wt := not_lt.mpr ha.le
  simp [new_retry, hnot, get_inventory_from_cache]

/-- C2 witness: a 2-day-old cache, `maxcacheage` 5 days, a failure marker
10 minutes old with `waittime = 3600` — the stale-ignoring cache read is
returned and the service is not called. -/
theorem C2_witness :
    get_inventory 432000 3600 80 [] false (some ⟨172800, invGR⟩) ⟨some 600⟩
        none false = ⟨some invGR, false, ⟨some 600⟩⟩ :=
  C2_cache_reused_when_gate_denies 432000 3600 80 [] false ⟨172800, invGR⟩ 600
    (by norm_num) none

/-- C3, counterexample to the claim as stated: with `waittime = 3600`,
after a failure the first `new_retry` call is denied, a call `3601`
seconds after the failure is allowed — but the allowed call removes the
flag file, so the next immediate `new_retry` call returns `true` again,
not `false` as the claim asserts. -/
theorem C3_counterexample :
    (new_retry 3600 (try_failed ⟨none⟩)).1 = false ∧
    (new_retry 3600 (rm_advance 3601 (try_failed ⟨none⟩))).1 = true ∧
    (new_retry 3600 ((new_retry 3600 (rm_advance 3601 (try_failed ⟨none⟩))).2)).1
      = true := by
  have h1 : ¬((0 : ℚ) > 3600) := by norm_num
  have h2 : (3600 : ℚ) < 3601 := by norm_num
  exact ⟨by simp [new_retry, try_failed, h1],
    by simp [new_retry, try_failed, rm_advance, h2],
    by simp [new_retry, try_failed, rm_advance, h2]⟩

/-- C3 (amended): `new_retry` immediately after `try_failed` returns
`false`; once more than `waittime` seconds have elapsed since the
failure it returns `true` and removes the flag file — after which
further immediate `new_retry` calls keep returning `true` (the gate only
denies again after another `try_failed`). -/
theorem C3_retry_gate (wt : ℚ) (hwt : 0 ≤ wt) (s : RMState) (t : ℚ)
    (ht : wt < t) :
    (new_retry wt (try_failed s)).1 = false ∧
    new_retry wt (rm_advance t (try_failed s)) = (true, ⟨none⟩) ∧
    (new_retry wt ((new_retry wt (rm_advance t (try_failed s))).2)).1 = true := by
  have h0 : ¬(0 : ℚ) > wt := not_lt.mpr hwt
  have h2 : new_retry wt (rm_advance t (try_failed s)) = (true, ⟨none⟩) := by
    simp [new_retry, rm_advance, try_failed, ht]
  refine ⟨by simp [new_retry, try_failed, h0], h2, ?_⟩
  rw [h2]
  rfl

/-- C3 witness: the amended gate behaviour at `waittime = 3600`, with the
retry attempted `3601` seconds after the failure. -/
theorem C3_witness :
    (new_retry 3600 (try_failed ⟨none⟩)).1 = false ∧
    new_retry 3600 (rm_advance 3601 (try_failed ⟨none⟩)) = (true, ⟨none⟩) ∧
    (new_retry 3600 ((new_retry 3600 (rm_advance 3601 (try_failed ⟨none⟩))).2)).1
      = true :=
  C3_retry_gate 3600 (by norm_num) ⟨none⟩ 3601 (by norm_num)

/-- Helper: no reference network is missing exactly when every reference
network occurs among the inventory's network codes. -/
theorem servers_missing_eq_nil_iff (refs : List String) (inv : Inventory) :
    servers_missing refs inv = [] ↔ ∀ r ∈ refs, r ∈ networks_contents inv := by
  simp [servers_missing, List.filter_eq_nil_iff]

/-- C4: quorum validation of a freshly fetched catalog accepts (returns
the catalog unchanged) iff it has at least `eia_min_num_networks`
distinct networks and either no reference network is missing or
`ignore_missing` is set; too few distinct networks reject regardless of
`ignore_missing`; all reference networks present plus enough distinct
networks accept. -/
theorem C4_quorum (minN : ℕ) (refs : List String) (ign : Bool)
    (inv : Inventory) :
    (get_inventory_from_service minN refs ign (some inv) = some inv ↔
      (minN ≤ number_of_networks inv ∧
        (servers_missing refs inv = [] ∨ ign = true))) ∧
    (number_of_networks inv < minN →
      get_inventory_from_service minN refs ign (some inv) = none) ∧
    ((∀ r ∈ refs, r ∈ networks_contents inv) →
      minN ≤ number_of_networks inv →
      get_inventory_from_service minN refs ign (some inv) = some inv) := by
  refine ⟨?_, ?_, ?_⟩
  · simp only [get_inventory_from_service]
    split_ifs with h1 h2 h3
    · constructor
      · intro h; exact absurd h (by simp)
      · rintro ⟨hle, -⟩; exact absurd h1 (not_lt.mpr hle)
    · simp [not_lt.mp h1, h3]
    · constructor
      · intro h; exact absurd h (by simp)
      · rintro ⟨-, hmiss | hign⟩
        · exact absurd hmiss h2
        · exact absurd hign h3
    · simp [not_lt.mp h1, not_not.mp h2]
  · intro h
    simp only [get_inventory_from_service]
    rw [if_pos h]
  · intro hall hle
    simp only [get_inventory_from_service]
    rw [if_neg (not_lt.mpr hle),
      if_neg (by simp [(servers_missing_eq_nil_iff refs inv).mpr hall])]

/-- C4 witness: the sample inventory (one network `GR`) is accepted with
`min_network_count = 1` and reference list `["GR"]`, and rejected with
`min_network_count = 2` whatever the reference situation. -/
theorem C4_witness :
    get_inventory_from_service 1 ["GR"] false (some invGR) = some invGR ∧
    get_inventory_from_service 2 ["GR"] false (some invGR) = none :=
  ⟨(C4_quorum 1 ["GR"] false invGR).2.2 (by decide) (by decide),
   (C4_quorum 2 ["GR"] false invGR).2.1 (by decide)⟩

/-- C5: the status classification is a total function over the observed
probe outcomes: a raising metadata fetch yields NOSERV; a raising
waveform fetch or zero traces yields NODATA; more than one trace yields
FRAGMENT regardless of any duration; one trace with trimmed duration
below 99% of the requested duration yields INCOMPL; one sufficiently
long trace whose restitution raises yields RESTFAIL; restitution
succeeding with a NaN first sample yields METAFAIL; otherwise OK — and
every outcome is mapped to exactly one of the seven codes. -/
theorem C5_classification (reqlen : ℚ) (hreq : 0 < reqlen) :
    (∀ e, probe_status reqlen (.metaFail e) = STATUS_NOSERV) ∧
    (probe_status reqlen (.waveform none) = STATUS_NODATA) ∧
    (probe_status reqlen (.waveform (some [])) = STATUS_NODATA) ∧
    (∀ t1 t2 ts,
      probe_status reqlen (.waveform (some (t1 :: t2 :: ts))) = STATUS_FRAGMENT) ∧
    (∀ trc : Trace, trc.delta * trc.npts < 99/100 * reqlen →
      probe_status reqlen (.waveform (some [trc])) = STATUS_INCOMPLETE) ∧
    (∀ trc : Trace, 99/100 * reqlen ≤ trc.delta * trc.npts →
      trc.restfailed = true →
      probe_status reqlen (.waveform (some [trc])) = STATUS_RESTFAIL) ∧
    (∀ trc : Trace, 99/100 * reqlen ≤ trc.delta * trc.npts →
      trc.restfailed = false → trc.firstSampleNaN = true →
      probe_status reqlen (.waveform (some [trc])) = STATUS_METAFAIL) ∧
    (∀ trc : Trace, 99/100 * reqlen ≤ trc.delta * trc.npts →
      trc.restfailed = false → trc.firstSampleNaN = false →
      probe_status reqlen (.waveform (some [trc])) = STATUS_OK) ∧
    (∀ o, probe_status reqlen o ∈ [STATUS_OK, STATUS_NOSERV, STATUS_METAFAIL,
      STATUS_NODATA, STATUS_FRAGMENT, STATUS_INCOMPLETE, STATUS_RESTFAIL]) := by
  have hdiv : ∀ d : ℚ, d / reqlen < 99/100 ↔ d < 99/100 * reqlen :=
    fun d => div_lt_iff₀ hreq
  refine ⟨fun e => rfl, rfl, rfl, fun t1 t2 ts => rfl, ?_, ?_, ?_, ?_, ?_⟩
  · intro trc h
    simp [probe_status, process_request_status, classify_trace, (hdiv _).mpr h]
  · intro trc h hrf
    have hc : ¬(trc.delta * trc.npts / reqlen < 99/100) :=
      (hdiv _).not.mpr (not_lt.mpr h)
    simp [probe_status, process_request_status, classify_trace, hc, hrf]
  · intro trc h hrf hnan
    have hc : ¬(trc.delta * trc.npts / reqlen < 99/100) :=
      (hdiv _).not.mpr (not_lt.mpr h)
    simp [probe_status, process_request_status, classify_trace, hc, hrf, hnan]
  · intro trc h hrf hnan
    have hc : ¬(trc.delta * trc.npts / reqlen < 99/100) :=
      (hdiv _).not.mpr (not_lt.mpr h)
    simp [probe_status, process_request_status, classify_trace, hc, hrf, hnan]
  · intro o
    rcases o with e | st
    · show STATUS_NOSERV ∈ _
      decide
    · rcases st with _ | (_ | ⟨trc, _ | ⟨t2, ts⟩⟩)
      · show STATUS_NODATA ∈ _
        decide
      · show STATUS_NODATA ∈ _
        decide
      · show (if trc.delta * (trc.npts : ℚ) / reqlen < 99/100 then
            STATUS_INCOMPLETE
          else if trc.restfailed then STATUS_RESTFAIL
          else if trc.firstSampleNaN then STATUS_METAFAIL
          else STATUS_OK) ∈ _
        split_ifs <;> decide
      · show STATUS_FRAGMENT ∈ _
        decide

/-- C5 witness: the truth table evaluated at a 600 s request — a trace
of 570 one-second samples is INCOMPL; a full 600-sample trace with
failing restitution is RESTFAIL; with restitution succeeding a NaN first
sample is METAFAIL and a valid one OK; two traces are FRAGMENT. -/
theorem C5_witness :
    probe_status 600 (.waveform (some [⟨1, 570, false, false⟩])) =
      STATUS_INCOMPLETE ∧
    probe_status 600 (.waveform (some [⟨1, 600, true, false⟩])) =
      STATUS_RESTFAIL ∧
    probe_status 600 (.waveform (some [⟨1, 600, false, true⟩])) =
      STATUS_METAFAIL ∧
    probe_status 600 (.waveform (some [⟨1, 600, false, false⟩])) = STATUS_OK ∧
    probe_status 600
      (.waveform (some [⟨1, 300, false, false⟩, ⟨1, 300, false, false⟩])) =
      STATUS_FRAGMENT ∧
    probe_status 600 (.metaFail "timeout") = STATUS_NOSERV ∧
    probe_status 600 (.waveform none) = STATUS_NODATA := by
  have h := C5_classification 600 (by norm_num)
  exact ⟨h.2.2.2.2.1 ⟨1, 570, false, false⟩ (by norm_num),
    h.2.2.2.2.2.1 ⟨1, 600, true, false⟩ (by norm_num) rfl,
    h.2.2.2.2.2.2.1 ⟨1, 600, false, true⟩ (by norm_num) rfl rfl,
    h.2.2.2.2.2.2.2.1 ⟨1, 600, false, false⟩ (by norm_num) rfl rfl,
    h.2.2.2.1 ⟨1, 300, false, false⟩ ⟨1, 300, false, false⟩ [],
    h.1 "timeout", h.2.1⟩

/-- Helper: every network of the selection `inv.select(net, sta)` comes
from a network of the inventory with the right code, its stations being
that network's epochs filtered to the station code. -/
theorem inv_select_mem (inv : Inventory) (net sta : String) (n : Network)
    (hn : n ∈ inv_select inv net sta) :
    ∃ n0 ∈ inv.networks, n0.code = net ∧
      n.stations = n0.stations.filter (fun s => s.code = sta) := by
  unfold inv_select at hn
  obtain ⟨hmem, -⟩ := List.mem_filter.mp hn
  obtain ⟨n0, hn0, hmk⟩ := List.mem_map.mp hmem
  obtain ⟨hn0mem, hcode⟩ := List.mem_filter.mp hn0
  exact ⟨n0, hn0mem, by simpa using hcode, by rw [← hmk]⟩

/-- Helper: a station reported as operating has, among the inventory's
networks with the station's network code, an epoch of that station whose
end date is absent or in the future. -/
theorem is_operating_spec (inv : Inventory) (net sta : String) (now : ℚ)
    (h : is_operating inv net sta now = true) :
    ∃ n ∈ inv.networks, n.code = net ∧ ∃ ep ∈ n.stations, ep.code = sta ∧
      (ep.end_date = none ∨ ∃ e, ep.end_date = some e ∧ now < e) := by
  unfold is_operating at h
  rcases hsel : inv_select inv net sta with _ | ⟨selnet, rest⟩
  · rw [hsel] at h
    cases h
  · rw [hsel] at h
    obtain ⟨ep, hep, hcond⟩ := List.any_eq_true.mp h
    obtain ⟨n0, hn0, hcode, hstations⟩ :=
      inv_select_mem inv net sta selnet (hsel ▸ List.mem_cons_self selnet rest)
    rw [hstations] at hep
    obtain ⟨hepmem, hepcode⟩ := List.mem_filter.mp hep
    refine ⟨n0, hn0, hcode, ep, hepmem, by simpa using hepcode, ?_⟩
    rcases hend : ep.end_date with _ | e
    · exact Or.inl rfl
    · rw [hend] at hcond
      exact Or.inr ⟨e, rfl, by simpa using hcond⟩

/-- C6: every station returned by the rejection-sampling loop of
`select_random_station` has a network outside the exclude list and is
operating now — it has at least one epoch whose end date is absent or in
the future — whatever the random draws were. -/
theorem C6_sampler_sound (slist : Inventory) (exclude_networks : List String)
    (large_networks : List (String × ℚ)) (now : ℚ) (draws : List Draw)
    (net sta : String)
    (h : select_random_station slist exclude_networks large_networks now draws
      = some (net, sta)) :
    net ∉ exclude_networks ∧ is_operating slist net sta now = true ∧
      ∃ n ∈ slist.networks, n.code = net ∧ ∃ ep ∈ n.stations, ep.code = sta ∧
        (ep.end_date = none ∨ ∃ e, ep.end_date = some e ∧ now < e) := by
  induction draws with
  | nil => cases h
  | cons d ds ih =>
    rw [select_random_station] at h
    rcases hget : (station_list slist).get?
        (d.idx % (station_list slist).length) with _ | ⟨net', sta'⟩
    · rw [hget] at h
      exact ih h
    · rw [hget] at h
      dsimp only at h
      split_ifs at h with hw hacc
      · exact ih h
      · obtain ⟨hnet, hsta⟩ : net' = net ∧ sta' = sta := by
          have := Option.some.inj h
          exact ⟨congrArg Prod.fst this, congrArg Prod.snd this⟩
        subst hnet; subst hsta
        exact ⟨hacc.1, hacc.2, is_operating_spec slist net' sta' now hacc.2⟩
      · exact ih h

/-- C6 witness: on the sample inventory with exclude list `["XX"]`, a
single draw returns station `GR.BFO`, which is outside the exclude list
and operating (open-ended epoch). -/
theorem C6_witness :
    "GR" ∉ ["XX"] ∧ is_operating invGR "GR" "BFO" 0 = true ∧
      ∃ n ∈ invGR.networks, n.code = "GR" ∧
        ∃ ep ∈ n.stations, ep.code = "BFO" ∧
          (ep.end_date = none ∨ ∃ e, ep.end_date = some e ∧ (0 : ℚ) < e) :=
  C6_sampler_sound invGR ["XX"] [] 0 [⟨0, 0⟩] "GR" "BFO" (by decide)

/-- C7: for a global span strictly longer than `maxreqlen` and
`0 < minreqlen < maxreqlen`, the random request window lies inside the
span and its length lies in the half-open interval
`[minreqlen, maxreqlen)` — `maxreqlen` itself is never reached. -/
theorem C7_window_bounds (span0 span1 minreqlen maxreqlen : ℤ)
    (hmin : 0 < minreqlen) (hlen : minreqlen < maxreqlen)
    (hspan : maxreqlen < span1 - span0) (rlen rstart : ℕ) :
    span0 ≤ (get_random_request_interval span0 span1 minreqlen maxreqlen
        rlen rstart).1 ∧
    (get_random_request_interval span0 span1 minreqlen maxreqlen
        rlen rstart).2 ≤ span1 ∧
    minreqlen ≤ (get_random_request_interval span0 span1 minreqlen maxreqlen
        rlen rstart).2 -
      (get_random_request_interval span0 span1 minreqlen maxreqlen
        rlen rstart).1 ∧
    (get_random_request_interval span0 span1 minreqlen maxreqlen
        rlen rstart).2 -
      (get_random_request_interval span0 span1 minreqlen maxreqlen
        rlen rstart).1 < maxreqlen := by
  unfold get_random_request_interval get_random_request_length randint
  have hm : (0 : ℤ) < maxreqlen - minreqlen := by omega
  have ha1 : 0 ≤ (rlen : ℤ) % (maxreqlen - minreqlen) :=
    Int.emod_nonneg _ (by omega)
  have ha2 : (rlen : ℤ) % (maxreqlen - minreqlen) < maxreqlen - minreqlen :=
    Int.emod_lt_of_pos _ hm
  set a := (rlen : ℤ) % (maxreqlen - minreqlen) with hadef
  have ht : 0 < (span1 - span0) - (minreqlen + a) := by omega
  have hb1 : 0 ≤ (rstart : ℤ) % ((span1 - span0) - (minreqlen + a)) :=
    Int.emod_nonneg _ (by omega)
  have hb2 : (rstart : ℤ) % ((span1 - span0) - (minreqlen + a)) <
      (span1 - span0) - (minreqlen + a) := Int.emod_lt_of_pos _ ht
  set b := (rstart : ℤ) % ((span1 - span0) - (minreqlen + a)) with hbdef
  refine ⟨?_, ?_, ?_, ?_⟩ <;> dsimp only <;> omega

/-- C7 witness: the bounds at a one-year span with request lengths in
`[60, 600)` seconds and zero random tape. -/
theorem C7_witness :
    (0 : ℤ) ≤ (get_random_request_interval 0 31536000 60 600 0 0).1 ∧
    (get_random_request_interval 0 31536000 60 600 0 0).2 ≤ 31536000 ∧
    (60 : ℤ) ≤ (get_random_request_interval 0 31536000 60 600 0 0).2 -
      (get_random_request_interval 0 31536000 60 600 0 0).1 ∧
    (get_random_request_interval 0 31536000 60 600 0 0).2 -
      (get_random_request_interval 0 31536000 60 600 0 0).1 < 600 :=
  C7_window_bounds 0 31536000 60 600 (by norm_num) (by norm_num)
    (by norm_num) 0 0

/-- Helper: the loop of `server_request` accumulates the union of the
network sets of the succeeding servers and appends each failing server
to the failure record, never aborting. -/
theorem server_request_aux_spec (reqs : List (String × FetchOutcome))
    (acc : Finset String) (fails : List String) :
    (∀ x, x ∈ (server_request_aux acc fails reqs).1 ↔
      x ∈ acc ∨ ∃ srv inv, (srv, FetchOutcome.ok inv) ∈ reqs ∧
        x ∈ networks_contents inv) ∧
    (server_request_aux acc fails reqs).2 =
      fails ++ (reqs.filter (fun p => match p.2 with
        | .err _ => true | .ok _ => false)).map Prod.fst := by
  induction reqs generalizing acc fails with
  | nil => simp [server_request_aux]
  | cons p rest ih =>
    rcases p with ⟨srv, out⟩
    rcases out with inv | msg
    · simp only [server_request_aux]
      obtain ⟨ih1, ih2⟩ := ih (acc ∪ (networks_contents inv).toFinset) fails
      refine ⟨?_, ?_⟩
      · intro x
        rw [ih1 x]
        simp only [Finset.mem_union, List.mem_toFinset]
        constructor
        · rintro ((hx | hx) | ⟨s, i, hm, hxi⟩)
          · exact Or.inl hx
          · exact Or.inr ⟨srv, inv, List.mem_cons_self _ _, hx⟩
          · exact Or.inr ⟨s, i, List.mem_cons_of_mem _ hm, hxi⟩
        · rintro (hx | ⟨s, i, hm, hxi⟩)
          · exact Or.inl (Or.inl hx)
          · rcases List.mem_cons.mp hm with heq | hm'
            · obtain ⟨-, h2⟩ := Prod.mk.injEq .. ▸ heq
              cases h2
              exact Or.inl (Or.inr hxi)
            · exact Or.inr ⟨s, i, hm', hxi⟩
      · rw [ih2]
        simp [List.filter_cons]
    · simp only [server_request_aux]
      obtain ⟨ih1, ih2⟩ := ih acc (fails ++ [srv])
      refine ⟨?_, ?_⟩
      · intro x
        rw [ih1 x]
        constructor
        · rintro (hx | ⟨s, i, hm, hxi⟩)
          · exact Or.inl hx
          · exact Or.inr ⟨s, i, List.mem_cons_of_mem _ hm, hxi⟩
        · rintro (hx | ⟨s, i, hm, hxi⟩)
          · exact Or.inl hx
          · rcases List.mem_cons.mp hm with heq | hm'
            · obtain ⟨-, h2⟩ := Prod.mk.injEq .. ▸ heq
              cases h2
            · exact Or.inr ⟨s, i, hm', hxi⟩
      · rw [ih2]
        simp [List.filter_cons]

/-- C8: a failing direct per-server request is recorded for that server
and does not abort the batch — the resulting network set is exactly the
union over the servers that succeeded — while a failing routed request
makes the whole cycle abort with no comparison computed; a succeeding
routed request yields the full comparison. -/
theorem C8_partial_failure_semantics (reqs : List (String × FetchOutcome))
    (reference_networks : List String) :
    (∀ msg, inv_test_cycle reqs (.err msg) reference_networks = none) ∧
    (∀ rinv, inv_test_cycle reqs (.ok rinv) reference_networks =
      some ⟨(server_request reqs).1, (server_request reqs).2,
        (networks_contents rinv).toFinset,
        reference_networks.filter
          (fun net => net ∉ (networks_contents rinv).toFinset),
        (networks_contents rinv).toFinset \ (server_request reqs).1,
        (server_request reqs).1 \ (networks_contents rinv).toFinset⟩) ∧
    (∀ x, x ∈ (server_request reqs).1 ↔
      ∃ srv inv, (srv, FetchOutcome.ok inv) ∈ reqs ∧
        x ∈ networks_contents inv) ∧
    ((server_request reqs).2 = (reqs.filter (fun p => match p.2 with
      | .err _ => true | .ok _ => false)).map Prod.fst) := by
  obtain ⟨h1, h2⟩ := server_request_aux_spec reqs ∅ []
  refine ⟨fun msg => rfl, fun rinv => rfl, ?_, by simpa using h2⟩
  intro x
  rw [show (server_request reqs).1 = (server_request_aux ∅ [] reqs).1 from rfl,
    h1 x]
  simp

/-- C8 witness: with one failing and one succeeding direct server and a
succeeding routed request, the cycle completes, the succeeding server's
networks are all in the union, and the failing server is recorded. -/
theorem C8_witness :
    inv_test_cycle [("ODC", .err "timeout"), ("GFZ", .ok invGR)]
        (.err "routing down") ["GR"] = none ∧
    ("GR" ∈ (server_request
        [("ODC", .err "timeout"), ("GFZ", .ok invGR)]).1 ↔
      ∃ srv inv,
        (srv, FetchOutcome.ok inv) ∈
          [("ODC", FetchOutcome.err "timeout"), ("GFZ", FetchOutcome.ok invGR)] ∧
        "GR" ∈ networks_contents inv) ∧
    (server_request [("ODC", .err "timeout"), ("GFZ", .ok invGR)]).2 =
      ["ODC"] :=
  ⟨(C8_partial_failure_semantics
      [("ODC", .err "timeout"), ("GFZ", .ok invGR)] ["GR"]).1 "routing down",
   (C8_partial_failure_semantics
      [("ODC", .err "timeout"), ("GFZ", .ok invGR)] ["GR"]).2.2.1 "GR",
   (C8_partial_failure_semantics
      [("ODC", .err "timeout"), ("GFZ", .ok invGR)] ["GR"]).2.2.2⟩

/-- C9: when the fetched station metadata has an empty channel list, or
no channel matches the wanted 2-letter band+instrument prefixes,
`random_request` returns `None` and appends no result record — whereas
the only other early exit, a failing metadata fetch, writes one NOSERV
record. -/
theorem C9_silent_early_exits (wanted_channels : List String)
    (stainv : StaInv) (r : ℕ)
    (h : stainv.channels = [] ∨ matching_channels wanted_channels stainv = []) :
    random_request wanted_channels (.ok stainv) r = (none, []) ∧
    (∀ e r', random_request wanted_channels (.err e) r' =
      (none, [STATUS_NOSERV])) := by
  refine ⟨?_, fun e r' => rfl⟩
  rcases h with h | h
  · simp [random_request, h]
  · by_cases hc : stainv.channels = []
    · simp [random_request, hc]
    · simp [random_request, hc, select_random_station_channel, h]

/-- C9 witness: a station whose metadata lists no channels at all ends
the cycle with no selection and no record, while a failing metadata
fetch logs one NOSERV record. -/
theorem C9_witness :
    random_request ["HHZ", "BHZ", "EHZ", "SHZ"] (.ok ⟨[]⟩) 0 = (none, []) ∧
    (∀ e r', random_request ["HHZ", "BHZ", "EHZ", "SHZ"] (.err e) r' =
      (none, [STATUS_NOSERV])) :=
  C9_silent_early_exits ["HHZ", "BHZ", "EHZ", "SHZ"] ⟨[]⟩ 0 (Or.inl rfl)

/-- C10: constructing the inventory probe with a request level outside
`legal_reqlevels` fails with the `RuntimeError` before anything else —
the constructor is a pure function of the level, so no server or routing
request can have been issued — while a legal level is stored unchanged
on the constructed object. -/
theorem C10_reqlevel_validation (reqlevel : String) :
    (reqlevel ∉ legal_reqlevels →
      eida_inventory_init reqlevel =
        Except.error (reqlevel ++ " is not a legal request level")) ∧
    (reqlevel ∈ legal_reqlevels →
      eida_inventory_init reqlevel = Except.ok ⟨reqlevel⟩) := by
  constructor
  · intro h
    simp [eida_inventory_init, h]
  · intro h
    simp [eida_inventory_init, h]

/-- C10 witness: `"station"` is accepted and stored unchanged,
`"response"` is rejected. -/
theorem C10_witness :
    eida_inventory_init "station" = Except.ok ⟨"station"⟩ ∧
    eida_inventory_init "response" =
      Except.error ("response" ++ " is not a legal request level") :=
  ⟨(C10_reqlevel_validation "station").2 (by decide),
   (C10_reqlevel_validation "response").1 (by decide)⟩

end EidaQC
